import Mathlib

/-!
Verification model of `src/app.py` (survey-analysis chat service).

The embedding is a shallow translation of the query-resolution core:
fuzzy column matching (`find_best_column` over `difflib.SequenceMatcher`
ratios), value normalization (`parse_kadou_nissu`, `parse_kadou_jikan`),
condition extraction (`parse_conditions`), filter application
(`apply_filters`) and the `/ask` pipeline, evaluated over the demo
dataframe that the module builds when no CSV file is present (the
repository ships no `data/survey_data.csv`).

Numeric encodings: Python floats that occur in this program are all
exact halves (day counts are integers or midpoints `(a+b)/2` of
integers; hour bounds and thresholds are integers).  To keep every
definition kernel-computable we store day values in HALF-DAY units
(`n` encodes the number `n / 2`) and keep hour bounds as naturals.
Similarity ratios `2*M/T` are kept as exact fraction pairs `(2*M, T)`
and compared by cross multiplication, which agrees with the real-number
comparison of the ratios.  All list/string recursions are structural
(fuel-based where needed) so that closed theorems evaluate by `decide`.
-/

/-! ### Generic list and string helpers -/

/-- Characters the program treats as whitespace (`\s` in `re`, `str.split()`). -/
def isWs (c : Char) : Bool := c.isWhitespace

/-- Replace every (non-overlapping, leftmost) occurrence of `pat` by `rep`,
as Python `str.replace`; fuel-based for structural recursion.  An empty
pattern is a no-op (the program only replaces nonempty literals). -/
def replaceF (fuel : Nat) (pat rep s : List Char) : List Char :=
  match fuel, s with
  | 0, s => s
  | _ + 1, [] => []
  | fuel + 1, c :: cs =>
    if pat ≠ [] ∧ pat.isPrefixOf (c :: cs) then
      rep ++ replaceF fuel pat rep ((c :: cs).drop pat.length)
    else
      c :: replaceF fuel pat rep cs

/-- Python `str.replace` on strings. -/
def strReplace (s pat rep : String) : String :=
  String.mk (replaceF s.data.length pat.data rep.data s.data)

/-- Split on whitespace discarding empty chunks, as Python `str.split()`
(and as `re.sub(r"\s+", " ", …).strip()` followed by a space split). -/
def splitWsF (fuel : Nat) (s : List Char) : List String :=
  match fuel, s with
  | 0, _ => []
  | _ + 1, [] => []
  | fuel + 1, c :: cs =>
    if isWs c then splitWsF fuel cs
    else
      let tok := (c :: cs).takeWhile (fun d => ¬ isWs d)
      String.mk tok :: splitWsF fuel ((c :: cs).dropWhile (fun d => ¬ isWs d))

def splitWs (s : String) : List String := splitWsF s.data.length s.data

/-- Python `str.strip()`. -/
def pyStrip (s : String) : String :=
  String.mk (((s.data.dropWhile isWs).reverse.dropWhile isWs).reverse)

/-- Test that `needle` occurs as a contiguous substring of `hay` (Python `in` /
a metacharacter-free `re.search`). -/
def hasSubstr (needle hay : List Char) : Bool :=
  (List.range (hay.length + 1)).any (fun i => needle.isPrefixOf (hay.drop i))

/-- Digit characters to their value; `parseDigits` reads a nonempty digit
run as a natural number (the effect of Python `float(m.group(1))` on an
all-digit group, which is always integral). -/
def digitVal (c : Char) : Nat := c.toNat - 48

def parseDigits (ds : List Char) : Nat :=
  ds.foldl (fun n c => 10 * n + digitVal c) 0

/-- Decimal digit characters; `digitChar n` is only used with `n < 10`. -/
def digitChar : Nat → Char
  | 0 => '0' | 1 => '1' | 2 => '2' | 3 => '3' | 4 => '4'
  | 5 => '5' | 6 => '6' | 7 => '7' | 8 => '8' | _ => '9'

/-- Decimal digits of a natural number (fuel-based). -/
def natDigitsF : Nat → Nat → List Char
  | 0, _ => []
  | fuel + 1, n =>
    if n < 10 then [digitChar n]
    else natDigitsF fuel (n / 10) ++ [digitChar (n % 10)]

def natStr (n : Nat) : String := String.mk (natDigitsF (n + 1) n)

/-! ### `difflib.SequenceMatcher` ratio (no junk, short strings)

`find_longest_match` selects the block maximizing the match length,
breaking ties by smallest start in `a`, then smallest start in `b`;
`get_matching_blocks` recurses on the pieces left and right of that
block; `ratio` is `2*M/T` with `M` the total matched size and
`T = len(a)+len(b)` (and `1.0` when `T = 0`). -/

/-- Length of the longest common prefix of two character lists. -/
def commonPrefixLen : List Char → List Char → Nat
  | a :: as, b :: bs => if a = b then commonPrefixLen as bs + 1 else 0
  | _, _ => 0

/-- The longest matching block `(i, j, k)`: maximal `k`, ties broken by
least `i`, then least `j` — the block `find_longest_match` returns when
no junk is involved. -/
def bestBlock (a b : List Char) : Nat × Nat × Nat :=
  (List.range a.length).foldl
    (fun best i =>
      (List.range b.length).foldl
        (fun best j =>
          let k := commonPrefixLen (a.drop i) (b.drop j)
          if best.2.2 < k then (i, j, k) else best)
        best)
    (0, 0, 0)

/-- Total size of all matching blocks (the recursion of
`get_matching_blocks`), fuel-based. -/
def matchSumF : Nat → List Char → List Char → Nat
  | 0, _, _ => 0
  | fuel + 1, a, b =>
    let (i, j, k) := bestBlock a b
    if k = 0 then 0
    else
      k + matchSumF fuel (a.take i) (b.take j)
        + matchSumF fuel (a.drop (i + k)) (b.drop (j + k))

/-- The value `SequenceMatcher(None, a, b).ratio()` as an exact fraction
`(numerator, denominator)`; `(1, 1)` for two empty strings. -/
def ratioFrac (a b : List Char) : Nat × Nat :=
  let t := a.length + b.length
  if t = 0 then (1, 1)
  else (2 * matchSumF (t + 1) a b, t)

/-- Strict comparison of two nonnegative fractions by cross
multiplication: `p < q` as real numbers (denominators positive). -/
def fracLt (p q : Nat × Nat) : Bool := p.1 * q.2 < q.1 * p.2

/-! ### Column resolver (`normalize_str`, `calc_similarity`,
`find_best_column`) -/

/-- Characters stripped by `re.sub(r"[()\s（）]", "", s)`. -/
def strippedChars : List Char := ['(', ')', '（', '）']

def normalize_str (s : String) : String :=
  String.mk ((s.data.map Char.toLower).filter
    (fun c => ¬ (c ∈ strippedChars ∨ isWs c)))

/-- Function `calc_similarity` as an exact fraction. -/
def calc_similarity (a b : String) : Nat × Nat :=
  ratioFrac (normalize_str a).data (normalize_str b).data

/-- Function `find_best_column(user_text, threshold)`: fold over the dataframe's
columns keeping the strictly best score, return `none` when the best
score is below the threshold.  The threshold is an exact fraction
(the call sites use the default `0.4 = (2, 5)`). -/
def fbcStep (user_text : String) (acc : (Nat × Nat) × Option String)
    (col : String) : (Nat × Nat) × Option String :=
  let score := calc_similarity user_text col
  if fracLt acc.1 score then (score, some col) else acc

def find_best_column (cols : List String) (user_text : String)
    (threshold : Nat × Nat) : Option String :=
  let best := cols.foldl (fbcStep user_text) ((0, 1), none)
  if fracLt best.1 threshold then none else best.2

/-- The default threshold `0.4`. -/
def defThreshold : Nat × Nat := (2, 5)

/-! ### Value normalizers (`parse_kadou_nissu`, `parse_kadou_jikan`)

`re.match(r"(\d+)X", s)` anchors at the start: it succeeds exactly when
`s` begins with a nonempty digit run whose maximal extent is followed by
the literal `X` (backtracking inside the run cannot help, since a
shortened run is followed by a digit, not by `X`). -/

/-- Anchored `re.match((\d+) ++ suffix)`: the leading digit run, provided
it is nonempty and followed by `suffix`. -/
def matchNumThen (suffix : List Char) (s : List Char) : Option (List Char) :=
  let run := s.takeWhile Char.isDigit
  if run = [] then none
  else if suffix.isPrefixOf (s.dropWhile Char.isDigit) then some run
  else none

/-- Anchored `re.match((\d+)～(\d+) ++ suffix)`. -/
def matchRangeThen (suffix : List Char) (s : List Char) :
    Option (List Char × List Char) :=
  let r1 := s.takeWhile Char.isDigit
  if r1 = [] then none
  else
    match s.dropWhile Char.isDigit with
    | '～' :: rest =>
      let r2 := rest.takeWhile Char.isDigit
      if r2 = [] then none
      else if suffix.isPrefixOf (rest.dropWhile Char.isDigit) then some (r1, r2)
      else none
    | _ => none

/-- Function `parse_kadou_nissu` in half-day units: `"2日以下" ↦ 4` (= 2 days),
`"3～4日" ↦ 7` (= 3.5 days), `"5日" ↦ 10` (= 5 days); `none` models the
Python `None` (which pandas stores as NaN in the derived column).
The order of the three regex attempts follows the source. -/
def parse_kadou_nissu2 (s : String) : Option Nat :=
  match matchNumThen "日以下".data s.data with
  | some ds => some (2 * parseDigits ds)
  | none =>
    match matchRangeThen "日".data s.data with
    | some (a, b) => some (parseDigits a + parseDigits b)
    | none =>
      match matchNumThen "日".data s.data with
      | some ds => some (2 * parseDigits ds)
      | none => none

/-- Function `parse_kadou_jikan`: `"4～8時間" ↦ (4, 8)`, `"12時間以上" ↦ (12, None)`,
`"4時間未満" ↦ (None, 4)`, otherwise `(None, None)` (hour bounds are
integers).  Pattern order follows the source: range, then `以上`, then
`未満`. -/
def parse_kadou_jikan (s : String) : Option Nat × Option Nat :=
  match matchRangeThen "時間".data s.data with
  | some (a, b) => (some (parseDigits a), some (parseDigits b))
  | none =>
    match matchNumThen "時間以上".data s.data with
    | some ds => (some (parseDigits ds), none)
    | none =>
      match matchNumThen "時間未満".data s.data with
      | some ds => (none, some (parseDigits ds))
      | none => (none, none)

/-- Leftmost `re.search(r"(\d+)", val)`: the first maximal digit run. -/
def firstDigitRun : List Char → Option (List Char)
  | [] => none
  | c :: cs =>
    if c.isDigit then some ((c :: cs).takeWhile Char.isDigit)
    else firstDigitRun cs

def firstNum (s : String) : Option Nat := (firstDigitRun s.data).map parseDigits

/-! ### Data model

A dataframe cell is a raw string, a numeric day value (half-day units,
`none` = NaN), or a parsed `(low, high)` hour range.  A frame is a
column list plus rectangular rows. -/

inductive Cell where
  | str (s : String)
  | num2 (q : Option Nat)
  | range (lo hi : Option Nat)
deriving DecidableEq, Repr

structure Frame where
  cols : List String
  rows : List (List Cell)
deriving DecidableEq, Repr

/-- Cell of row `r` in column `col` (frames are rectangular, so the
default is unreachable on frames built by the program). -/
def getCell (f : Frame) (r : List Cell) (col : String) : Cell :=
  match f.cols.findIdx? (fun c => c = col) with
  | some i => r.getD i (Cell.str "")
  | none => Cell.str ""

/-- Python `str(...)` of a cell value, as `astype(str)` produces it:
strings unchanged; floats as halves (`"5.0"`, `"3.5"`, NaN as `"nan"`);
range tuples in Python tuple syntax. -/
def pyFloat2 (n : Nat) : String :=
  if n % 2 = 0 then natStr (n / 2) ++ ".0" else natStr (n / 2) ++ ".5"

def pyOptFloat : Option Nat → String
  | none => "None"
  | some n => pyFloat2 (2 * n)

def cellToStr : Cell → String
  | Cell.str s => s
  | Cell.num2 none => "nan"
  | Cell.num2 (some n) => pyFloat2 n
  | Cell.range lo hi => "(" ++ pyOptFloat lo ++ ", " ++ pyOptFloat hi ++ ")"

/-! ### The module-level dataframe

`data/survey_data.csv` is absent from the repository, so the module
builds the demo dataframe and then appends the two derived columns
`稼働日数_num` and `稼働時間_range` (module lines 39–46, 79–80, 117–118). -/

def baseCols : List String :=
  ["安全装備パッケージ", "荷台形状", "稼働日数", "稼働時間", "休憩時間", "燃費(km/L)"]

def baseRows : List (List String) :=
  [["STANDARD", "ミキサ", "5日", "4～8時間", "1～3時間", "10～15"],
   ["PREMIUM", "ダンプ", "2日以下", "8～12時間", "5時間以上", "20以上"],
   ["ADVANCE", "温度管理車", "7日", "12時間以上", "1時間未満", "15～20"],
   ["BASIC", "バン/ウィング", "3～4日", "8～12時間", "3～5時間", "5～10"],
   ["PREMIUM", "ミキサ", "6日", "4時間未満", "3～5時間", "10～15"]]

def dfBase : Frame :=
  ⟨baseCols, baseRows.map (fun r => r.map Cell.str)⟩

/-- Line 80, `df["稼働日数"].apply(parse_kadou_nissu)`: the `isinstance(s, str)`
guard makes non-string cells parse to `None`. -/
def cellParseDays : Cell → Option Nat
  | Cell.str s => parse_kadou_nissu2 s
  | _ => none

def cellParseHours : Cell → Option Nat × Option Nat
  | Cell.str s => parse_kadou_jikan s
  | _ => (none, none)

/-- Lines 79–80: append `稼働日数_num` when `稼働日数` is present. -/
def addDaysNum (f : Frame) : Frame :=
  if "稼働日数" ∈ f.cols then
    ⟨f.cols ++ ["稼働日数_num"],
     f.rows.map (fun r => r ++ [Cell.num2 (cellParseDays (getCell f r "稼働日数"))])⟩
  else f

/-- Lines 117–118: append `稼働時間_range` when `稼働時間` is present. -/
def addHoursRange (f : Frame) : Frame :=
  if "稼働時間" ∈ f.cols then
    ⟨f.cols ++ ["稼働時間_range"],
     f.rows.map (fun r =>
       let p := cellParseHours (getCell f r "稼働時間")
       r ++ [Cell.range p.1 p.2])⟩
  else f

/-- The module-level `df` used by every request. -/
def df : Frame := addHoursRange (addDaysNum dfBase)

/-! ### Condition parser (`parse_conditions`) -/

/-- Particles removed by `re.sub(r"[のでをにはが]", " ", user_text)`. -/
def particleChars : List Char := ['の', 'で', 'を', 'に', 'は', 'が']

/-- Lines 154–157: strip the chart phrases, replace particles by spaces
(the whitespace collapse and strip are absorbed by the whitespace
split that follows). -/
def preprocess (user_text : String) : String :=
  let t1 := strReplace (strReplace user_text "のグラフを作成" "") "のグラフ" ""
  String.mk (t1.data.map (fun c => if c ∈ particleChars then ' ' else c))

def tokensOf (user_text : String) : List String := splitWs (preprocess user_text)

/-- Leftmost `re.search((\d+) ++ suffix)` on a token: at each position of
a digit, the maximal run from there must be followed by `suffix`
(backtracking inside the run cannot produce another match). -/
def searchNumThen (suffix : List Char) : List Char → Option (List Char)
  | [] => none
  | c :: cs =>
    if c.isDigit ∧ suffix.isPrefixOf ((c :: cs).dropWhile Char.isDigit) then
      some ((c :: cs).takeWhile Char.isDigit)
    else searchNumThen suffix cs

/-- Lines 183–222: interpret a non-column token as `(operator, value)`,
trying the six patterns in source order and falling back to a plain
string equality condition. -/
def condForToken (t : String) : String × String :=
  match searchNumThen "日以上".data t.data with
  | some ds => (">=", String.mk ds ++ "日")
  | none =>
    match searchNumThen "日以下".data t.data with
    | some ds => ("<=", String.mk ds ++ "日")
    | none =>
      match searchNumThen "日".data t.data with
      | some ds => ("==", String.mk ds ++ "日")
      | none =>
        match searchNumThen "時間以上".data t.data with
        | some ds => (">=", String.mk ds ++ "時間以上")
        | none =>
          match searchNumThen "時間以下".data t.data with
          | some ds => ("<=", String.mk ds ++ "時間以下")
          | none =>
            match searchNumThen "時間".data t.data with
            | some ds => ("==", String.mk ds ++ "時間")
            | none => ("==", t)

/-- Python dict assignment `filter_dict[col] = v`: overwrite in place,
else append (insertion order preserved). -/
def dictSet (fd : List (String × String × String)) (k : String)
    (v : String × String) : List (String × String × String) :=
  if fd.any (fun e => e.1 = k) then
    fd.map (fun e => if e.1 = k then (k, v.1, v.2) else e)
  else fd ++ [(k, v.1, v.2)]

/-- One token of the forward scan (lines 175–222): a resolving token
sets the column in focus; otherwise a focused column consumes the token
as its condition and the focus is cleared. -/
def pcStep (f : Frame) (acc : List (String × String × String) × Option String)
    (t : String) : List (String × String × String) × Option String :=
  match find_best_column f.cols t defThreshold with
  | some c => (acc.1, some c)
  | none =>
    match acc.2 with
    | none => acc
    | some col => (dictSet acc.1 col (condForToken t), none)

/-- The forward scan's filter dict. -/
def parseFilterDict (f : Frame) (tokens : List String) :
    List (String × String × String) :=
  (tokens.foldl (pcStep f) ([], none)).1

/-- The reverse scan's target column (lines 224–233), defaulting to the
dataframe's first column (column names are nonempty, so Python's
falsiness test `if not target_col` is the `none` test). -/
def parseTarget (f : Frame) (tokens : List String) : String :=
  match tokens.reverse.findSome?
      (fun t => find_best_column f.cols t defThreshold) with
  | some c => c
  | none => f.cols.headI

/-- Function `parse_conditions`: forward scan for the filter dict, reverse scan
for the target column. -/
def parse_conditions (f : Frame) (user_text : String) :
    List (String × String × String) × String :=
  (parseFilterDict f (tokensOf user_text), parseTarget f (tokensOf user_text))

/-! ### Filter engine (`apply_filters`) -/

/-- Regular-expression metacharacters.  `.str.contains(val)` hands the
value to `re` as a pattern; we model exactly the metacharacter-free
fragment (plain substring search).  A value containing a metacharacter
is outside the modelled fragment and is mapped to an error — the one
such value used below, a lone `(`, does raise `re.error` in Python
(`missing ), unterminated subpattern`). -/
def reMetaChars : List Char :=
  ['.', '^', '$', '*', '+', '?', '[', ']', '\\', '|', '(', ')',
   Char.ofNat 123, Char.ofNat 125]

/-- Lines 311/317/320/322: `filtered[filtered[col].astype(str).str.contains(val)]`. -/
def containsFilter (f : Frame) (col val : String) : Except String Frame :=
  if val.data.any (fun c => c ∈ reMetaChars) then
    .error "re-pattern with metacharacters: outside the modelled fragment (a lone parenthesis raises re.error)"
  else
    .ok ⟨f.cols,
      f.rows.filter (fun r => hasSubstr val.data (cellToStr (getCell f r col)).data)⟩

/-- Monadic row filter: the boolean mask is computed per row and a row
whose test raises aborts the whole filter, as in pandas. -/
def filterE (p : List Cell → Except String Bool) :
    List (List Cell) → Except String (List (List Cell))
  | [] => .ok []
  | r :: rs => do
    let b ← p r
    let rest ← filterE p rs
    pure (if b then r :: rest else rest)

/-- Numeric comparison of a cell against a float: NaN compares `False`;
a non-numeric cell raises (`TypeError` in pandas). -/
def cellNumTest (c : Cell) (t : Nat → Bool) : Except String Bool :=
  match c with
  | Cell.num2 (some n) => .ok (t n)
  | Cell.num2 none => .ok false
  | _ => .error "TypeError: comparison of a non-numeric cell with a float"

/-- Unpack a `(low, high)` cell for `check_range`; a non-tuple cell
raises on unpacking or comparison. -/
def cellRangeTest (c : Cell) (t : Option Nat × Option Nat → Bool) :
    Except String Bool :=
  match c with
  | Cell.range lo hi => .ok (t (lo, hi))
  | _ => .error "TypeError: cell does not unpack as a (low, high) tuple"

/-- Lines 273–282 (`>=` branch of the hour filter): `low >= th`, or
`high >= th and (low or 0) <= th` (for `low` a number, `low or 0` is
`low` unless `low == 0.0`, when both read `0`). -/
def checkRangeGE (th : Nat) : Option Nat × Option Nat → Bool
  | (lo, hi) =>
    (match lo with
     | some l => decide (th ≤ l)
     | none => false) ||
    (match hi with
     | some h => decide (th ≤ h) && decide (lo.getD 0 ≤ th)
     | none => false)

/-- Lines 289–294 (`<=` branch): `high is not None and high <= th`. -/
def checkRangeLE (th : Nat) : Option Nat × Option Nat → Bool
  | (_, hi) =>
    match hi with
    | some h => decide (h ≤ th)
    | none => false

/-- Lines 303–307 (`==` branch): missing `low` read as `0`, missing
`high` read as the sentinel `999`, then `low <= x <= high`. -/
def checkRangeEQ (x : Nat) : Option Nat × Option Nat → Bool
  | (lo, hi) => decide (lo.getD 0 ≤ x) && decide (x ≤ hi.getD 999)

/-- One iteration of the `for col, (op, val) in filter_dict.items()`
loop.  Day values are in half-day units, so `cell >= v` reads
`2*v ≤ n`.  The `<=` day branch reproduces the source's lines 256–257:
line 256 rebinds `filtered` to a boolean Series, so line 257's
`filtered[filtered[use_col] <= v]` indexes that Series with the column
label and raises `KeyError`. -/
def applyOne (f : Frame) (cond : String × String × String) :
    Except String Frame :=
  let col := cond.1
  let op := cond.2.1
  let val := cond.2.2
  if col ∉ f.cols then .ok f
  else if col = "稼働日数" ∧ "稼働日数_num" ∈ f.cols then
    match firstNum val with
    | none => .ok f
    | some v =>
      if op = ">=" then
        (filterE (fun r =>
          cellNumTest (getCell f r "稼働日数_num") (fun n => decide (2 * v ≤ n)))
          f.rows).map (fun rs => ⟨f.cols, rs⟩)
      else if op = "<=" then
        .error "KeyError: 稼働日数_num — line 256 rebinds filtered to a boolean Series, line 257 indexes it by column label"
      else if op = "==" then
        (filterE (fun r =>
          cellNumTest (getCell f r "稼働日数_num") (fun n => decide (n = 2 * v)))
          f.rows).map (fun rs => ⟨f.cols, rs⟩)
      else .ok f
  else if col = "稼働時間" ∧ "稼働時間_range" ∈ f.cols then
    if op = ">=" then
      match firstNum val with
      | none => .ok f
      | some th =>
        (filterE (fun r => cellRangeTest (getCell f r "稼働時間_range") (checkRangeGE th))
          f.rows).map (fun rs => ⟨f.cols, rs⟩)
    else if op = "<=" then
      match firstNum val with
      | none => .ok f
      | some th =>
        (filterE (fun r => cellRangeTest (getCell f r "稼働時間_range") (checkRangeLE th))
          f.rows).map (fun rs => ⟨f.cols, rs⟩)
    else if op = "==" then
      match firstNum val with
      | none => .ok f
      | some x =>
        (filterE (fun r => cellRangeTest (getCell f r "稼働時間_range") (checkRangeEQ x))
          f.rows).map (fun rs => ⟨f.cols, rs⟩)
    else containsFilter f col val
  else
    if op = "==" ∨ op = ">=" ∨ op = "<=" then containsFilter f col val
    else .ok f

/-- Function `apply_filters`: `df_in.copy()` then the condition loop.  The copy
is the identity on the frame value; the heap model below accounts for
the object-level copy. -/
def apply_filters (df_in : Frame) (fd : List (String × String × String)) :
    Except String Frame :=
  List.foldlM applyOne df_in fd

/-! ### Heap model of `apply_filters` for the no-mutation claim

Objects live in an append-only heap of frames; `df_in.copy()` allocates
a fresh frame and every pandas filtering expression allocates again and
rebinds the local `filtered`.  No statement of `apply_filters` writes
through an existing reference, which the heap model makes literal:
the loop only ever appends. -/

def applyLoopHp (heap : List Frame) (idx : Nat) :
    List (String × String × String) → List Frame × Except String Nat
  | [] => (heap, .ok idx)
  | c :: cs =>
    match applyOne (heap.getD idx ⟨[], []⟩) c with
    | .error e => (heap, .error e)
    | .ok f' => applyLoopHp (heap ++ [f']) heap.length cs

/-- Function `apply_filters` over the heap: the caller's frame lives at index
`i`; the result is the final heap and the index of the result frame
(or the raised error). -/
def apply_filters_heap (heap : List Frame) (i : Nat)
    (fd : List (String × String × String)) : List Frame × Except String Nat :=
  applyLoopHp (heap ++ [heap.getD i ⟨[], []⟩]) heap.length fd

/-! ### Distribution summarizer and `/ask` pipeline -/

/-- Distinct values in first-occurrence order. -/
def firstOccsGo (seen : List String) : List String → List String
  | [] => []
  | a :: as => if a ∈ seen then firstOccsGo seen as else a :: firstOccsGo (a :: seen) as

/-- Stable insertion by descending count (`value_counts` sorts by count,
ties staying in first-encountered order). -/
def insertByCount (acc : List (String × Nat)) (x : String × Nat) :
    List (String × Nat) :=
  match acc with
  | [] => [x]
  | y :: ys => if y.2 < x.2 then x :: y :: ys else y :: insertByCount ys x

def value_counts (vals : List String) : List (String × Nat) :=
  ((firstOccsGo [] vals).map (fun v => (v, vals.count v))).foldl insertByCount []

/-- Python `"%.2f"`-style rendering of the nonnegative rational `p / q`
(`q > 0`), rounding half to even on the exact value.  The original
formats a binary float; the double-rounding artifacts of that are not
modelled (no theorem below evaluates this rendering). -/
def fmt2Frac (p q : Nat) : String :=
  let n := p * 100
  let whole := n / q
  let c :=
    if q < 2 * (n % q) then whole + 1
    else if 2 * (n % q) < q then whole
    else if whole % 2 = 0 then whole else whole + 1
  natStr (c / 100) ++ "." ++ (if c % 100 < 10 then "0" else "") ++ natStr (c % 100)

/-- Function `get_distribution_and_chart` (lines 329–370): the returned flag says
whether a chart was produced; the bar-chart rendering itself is the
external boundary.  The numeric branch reports `describe`'s count,
mean, min and max over the non-NaN values (the 5-bin histogram feeds
only the chart); the categorical branch reports `value_counts`. -/
def get_distribution_and_chart (f : Frame) (column_name : String) :
    String × Bool :=
  if column_name ∉ f.cols then
    ("列 '" ++ column_name ++ "' は存在しません。", false)
  else
    let series := f.rows.map (fun r => getCell f r column_name)
    if series.length = 0 then
      ("列 '" ++ column_name ++ "' についてデータがありません。", false)
    else if series.all (fun c => match c with | Cell.num2 _ => true | _ => false) then
      let vals := series.filterMap (fun c => match c with | Cell.num2 q => q | _ => none)
      let cnt := vals.length
      let sum := vals.foldl (· + ·) 0
      let lo := match vals with | [] => 0 | v :: vs => vs.foldl Nat.min v
      let hi := match vals with | [] => 0 | v :: vs => vs.foldl Nat.max v
      ("【" ++ column_name ++ " の統計】\n" ++
       "- 件数: " ++ pyFloat2 (2 * cnt) ++ "\n" ++
       "- 平均: " ++ (if cnt = 0 then "nan" else fmt2Frac sum (2 * cnt)) ++ "\n" ++
       "- 最小: " ++ (if cnt = 0 then "nan" else fmt2Frac lo 2) ++ "\n" ++
       "- 最大: " ++ (if cnt = 0 then "nan" else fmt2Frac hi 2) ++ "\n", true)
    else
      let counts := value_counts (series.map cellToStr)
      (counts.foldl
        (fun acc p => acc ++ "- " ++ p.1 ++ ": " ++ natStr p.2 ++ " 件\n")
        ("【" ++ column_name ++ " の回答分布】\n"), true)

/-- Function `get_guide_message` (lines 375–389). -/
def get_guide_message : String :=
  "質問が曖昧か、どのカラムにも該当しませんでした。\n以下のサンプルを参考に質問してみてください:\n\n- 「稼働日数が5日以上のデータを見せて」\n- 「荷台形状がミキサ」\n- 「稼働時間が8時間以上 の 稼働日数が5日以上 の 安全装備パッケージ」\n- 「休憩時間が1時間未満 の グラフ」\n- 「燃費(km/L)が15～20 の グラフを作成」\n\n使用可能なカラム一覧:\n" ++
  df.cols.foldl (fun acc c => acc ++ "- " ++ c ++ "\n") ""

/-- The `/ask` route (lines 398–433) on the module dataframe: the
result is the answer text and whether a chart image accompanies it; an
uncaught pandas exception (the `Except.error` case) surfaces as a 500,
not as a JSON answer. -/
def ask (question : String) : Except String (String × Bool) :=
  let user_text := pyStrip question
  if user_text = "" then
    .ok ("何について知りたいですか？\n" ++ get_guide_message, false)
  else
    let pc := parse_conditions df user_text
    match apply_filters df pc.1 with
    | .error e => .error e
    | .ok filtered =>
      if filtered.rows.length = 0 then
        .ok ("条件に合うデータがありませんでした。\n\n" ++ get_guide_message, false)
      else if pc.2 ∉ df.cols then
        .ok ("対象のカラムが特定できませんでした。\n\n" ++ get_guide_message, false)
      else
        let tc := get_distribution_and_chart filtered pc.2
        ((if pc.1.length = 0 then
            .ok ("質問がやや曖昧の可能性があります。\n\n" ++ tc.1, tc.2)
          else .ok (tc.1, tc.2)) : Except String (String × Bool))

/-! ### Spec-side readings used to compare the code with the claims -/

/-- The spec's reading of a categorical EQ test: case-insensitive
substring containment. -/
def ciContainsSubstr (cell val : String) : Bool :=
  hasSubstr (val.data.map Char.toLower) (cell.data.map Char.toLower)

/-- The spec's reading of an EQ match against a stored `(low, high)`
range: the range contains the value, with an open bound treated as
unbounded. -/
def rangeContainsUnbounded (lo hi : Option Nat) (x : Nat) : Bool :=
  (match lo with
   | none => true
   | some l => decide (l ≤ x)) &&
  (match hi with
   | none => true
   | some h => decide (x ≤ h))

/-- A cell that is a parsed `(low, high)` tuple. -/
def isRangeCell : Cell → Bool
  | Cell.range _ _ => true
  | _ => false

/-- The row test the `==` hour branch actually performs on well-formed
(range-valued) cells. -/
def rowRangeKeep (f : Frame) (x : Nat) (r : List Cell) : Bool :=
  match getCell f r "稼働時間_range" with
  | Cell.range lo hi => checkRangeEQ x (lo, hi)
  | _ => false

/-- Modelled from the spec: "normalizing the stringified numeric result
again" requires rendering the numeric result back into a day token; the
source contains no such stringification, so the natural rendering of
the value `n / 2` is used (`"7日"`, `"3.5日"`). -/
def stringifyDay2 (n : Nat) : String :=
  if n % 2 = 0 then natStr (n / 2) ++ "日" else natStr (n / 2) ++ ".5日"

/-! ### Helper lemmas -/

theorem findSome?_none_of_all {α β : Type} (g : α → Option β) :
    ∀ l : List α, (∀ a ∈ l, g a = none) → l.findSome? g = none := by
  intro l
  induction l with
  | nil => intro _; rfl
  | cons a as ih =>
    intro h
    have ha : g a = none := h a (List.mem_cons_self a as)
    simp only [List.findSome?, ha]
    exact ih (fun x hx => h x (List.mem_cons_of_mem a hx))

theorem exists_of_findSome?_some {α β : Type} {g : α → Option β} {b : β} :
    ∀ {l : List α}, l.findSome? g = some b → ∃ a ∈ l, g a = some b := by
  intro l
  induction l with
  | nil => intro h; exact absurd h (by simp [List.findSome?])
  | cons a as ih =>
    intro h
    simp only [List.findSome?] at h
    cases ha : g a with
    | some c =>
      rw [ha] at h
      exact ⟨a, List.mem_cons_self a as, ha.trans h⟩
    | none =>
      rw [ha] at h
      obtain ⟨x, hx, hgx⟩ := ih h
      exact ⟨x, List.mem_cons_of_mem a hx, hgx⟩

theorem calc_similarity_den_pos (a b : String) : 0 < (calc_similarity a b).2 := by
  simp only [calc_similarity, ratioFrac]
  split
  · exact Nat.one_pos
  · exact Nat.pos_of_ne_zero (by assumption)

/-- Fold invariant of `find_best_column`: a produced column is one of
the candidates and carries exactly the best score. -/
theorem fbc_fold_spec (text : String) :
    ∀ (l : List String) (acc : (Nat × Nat) × Option String) (c : String),
      (l.foldl (fbcStep text) acc).2 = some c →
      (c ∈ l ∧ calc_similarity text c = (l.foldl (fbcStep text) acc).1) ∨
      (acc.2 = some c ∧ acc.1 = (l.foldl (fbcStep text) acc).1) := by
  intro l
  induction l with
  | nil =>
    intro acc c h
    exact Or.inr ⟨h, rfl⟩
  | cons a as ih =>
    intro acc c h
    rw [List.foldl_cons] at h ⊢
    rcases ih (fbcStep text acc a) c h with ⟨hm, hs⟩ | ⟨h2, h1⟩
    · exact Or.inl ⟨List.mem_cons_of_mem a hm, hs⟩
    · by_cases hlt : fracLt acc.1 (calc_similarity text a) = true
      · have hstep : fbcStep text acc a = (calc_similarity text a, some a) := by
          simp [fbcStep, hlt]
        rw [hstep] at h2 h1 ⊢
        have hca : c = a := by
          have := h2
          simp only at this
          exact (Option.some.inj this).symm
        subst hca
        exact Or.inl ⟨List.mem_cons_self c as, h1⟩
      · have hstep : fbcStep text acc a = acc := by
          simp [fbcStep, hlt]
        rw [hstep] at h2 h1 ⊢
        exact Or.inr ⟨h2, h1⟩

/-- A column returned by `find_best_column` is a dataframe column and
its similarity score is not below the threshold. -/
theorem find_best_column_some (cols : List String) (text : String)
    (th : Nat × Nat) (c : String)
    (h : find_best_column cols text th = some c) :
    c ∈ cols ∧ fracLt (calc_similarity text c) th = false := by
  simp only [find_best_column] at h
  by_cases hlt : fracLt (cols.foldl (fbcStep text) ((0, 1), none)).1 th = true
  · rw [if_pos hlt] at h
    exact absurd h (by simp)
  · rw [if_neg hlt] at h
    rcases fbc_fold_spec text cols ((0, 1), none) c h with ⟨hm, hs⟩ | ⟨h2, -⟩
    · refine ⟨hm, ?_⟩
      rw [hs]
      exact Bool.not_eq_true _ ▸ eq_false_of_ne_true hlt
    · exact absurd h2 (by simp)

theorem filterE_sublist (p : List Cell → Except String Bool) :
    ∀ (rs out : List (List Cell)), filterE p rs = Except.ok out → out.Sublist rs := by
  intro rs
  induction rs with
  | nil =>
    intro out h
    simp only [filterE] at h
    cases Except.ok.inj h
    exact List.Sublist.refl _
  | cons r rs ih =>
    intro out h
    simp only [filterE, bind, Except.bind] at h
    cases hp : p r with
    | error e => rw [hp] at h; exact absurd h (by simp)
    | ok b =>
      rw [hp] at h
      cases hrest : filterE p rs with
      | error e => rw [hrest] at h; exact absurd h (by simp)
      | ok rest =>
        rw [hrest] at h
        simp only [pure, Except.pure] at h
        have hout : (if b = true then r :: rest else rest) = out := Except.ok.inj h
        cases b with
        | false =>
          rw [if_neg (by decide)] at hout
          rw [← hout]
          exact (ih rest hrest).cons r
        | true =>
          rw [if_pos rfl] at hout
          rw [← hout]
          exact (ih rest hrest).cons₂ r

theorem filterE_eq_filter (p : List Cell → Except String Bool)
    (q : List Cell → Bool) :
    ∀ rs : List (List Cell), (∀ r ∈ rs, p r = Except.ok (q r)) →
      filterE p rs = Except.ok (rs.filter q) := by
  intro rs
  induction rs with
  | nil => intro _; rfl
  | cons r rs ih =>
    intro h
    have hr : p r = Except.ok (q r) := h r (List.mem_cons_self r rs)
    have hrest := ih (fun x hx => h x (List.mem_cons_of_mem r hx))
    simp only [filterE, bind, Except.bind, hr, hrest, pure, Except.pure,
      List.filter_cons]

theorem filterE_frame_ok {p : List Cell → Except String Bool} {f g : Frame}
    (h : (filterE p f.rows).map (fun rs => (⟨f.cols, rs⟩ : Frame)) = Except.ok g) :
    g.cols = f.cols ∧ g.rows.Sublist f.rows := by
  cases hf : filterE p f.rows with
  | error e => rw [hf] at h; exact absurd h (by simp [Except.map])
  | ok rs =>
    rw [hf] at h
    simp only [Except.map] at h
    cases Except.ok.inj h
    exact ⟨rfl, filterE_sublist p f.rows rs hf⟩

theorem containsFilter_ok {f : Frame} {col val : String} {g : Frame}
    (h : containsFilter f col val = Except.ok g) :
    g.cols = f.cols ∧ g.rows.Sublist f.rows := by
  simp only [containsFilter] at h
  split at h
  · exact absurd h (by simp)
  · cases Except.ok.inj h
    exact ⟨rfl, List.filter_sublist _⟩

/-- One loop iteration of the filter engine, when it returns normally,
preserves the columns and keeps a sublist of the rows. -/
theorem applyOne_ok (f : Frame) (c : String × String × String) (g : Frame)
    (h : applyOne f c = Except.ok g) :
    g.cols = f.cols ∧ g.rows.Sublist f.rows := by
  have hid : (Except.ok f : Except String Frame) = Except.ok g →
      g.cols = f.cols ∧ g.rows.Sublist f.rows := by
    intro h
    cases Except.ok.inj h
    exact ⟨rfl, List.Sublist.refl _⟩
  simp only [applyOne] at h
  repeat
    first
    | exact hid h
    | exact filterE_frame_ok h
    | exact containsFilter_ok h
    | exact Except.noConfusion h
    | split at h

/-- Running `apply_filters` on a single condition is one engine iteration. -/
theorem apply_filters_single (f : Frame) (c : String × String × String) :
    apply_filters f [c] = applyOne f c := by
  simp only [apply_filters, List.foldlM]
  cases applyOne f c <;> rfl

set_option maxRecDepth 100000

theorem applyLoopHp_fst (fd : List (String × String × String)) :
    ∀ (heap : List Frame) (idx : Nat),
      ∃ t, (applyLoopHp heap idx fd).1 = heap ++ t := by
  induction fd with
  | nil =>
    intro heap idx
    exact ⟨[], by simp [applyLoopHp]⟩
  | cons c cs ih =>
    intro heap idx
    simp only [applyLoopHp]
    cases h : applyOne (heap.getD idx ⟨[], []⟩) c with
    | error e => exact ⟨[], by simp⟩
    | ok f' =>
      obtain ⟨t, ht⟩ := ih (heap ++ [f']) heap.length
      exact ⟨[f'] ++ t, by rw [ht, List.append_assoc]⟩

/-- C9: the Filter Engine never mutates its input: in the heap model
(where `df_in.copy()` and every filtering expression allocate fresh
frames) every pre-existing heap entry — in particular the source
dataset at index `i` — is unchanged after `apply_filters` runs, for
every dataset, heap and condition set. -/
theorem C9_no_mutation (heap : List Frame) (i : Nat)
    (fd : List (String × String × String)) :
    ((apply_filters_heap heap i fd).1).take heap.length = heap := by
  obtain ⟨t, ht⟩ :=
    applyLoopHp_fst fd (heap ++ [heap.getD i ⟨[], []⟩]) heap.length
  simp only [apply_filters_heap, ht]
  rw [List.append_assoc]
  exact List.take_left heap ([heap.getD i ⟨[], []⟩] ++ t)

/-- C1: evaluating the Filter Engine on a `<=` condition for the
days-worked column (here `"5日"`, i.e. `v = 5`) raises instead of
returning the rows with day value `≤ v`: line 256 rebinds `filtered`
to a boolean Series and line 257 then indexes that Series with the
column label, a `KeyError`. -/
theorem C1_days_le_raises :
    apply_filters df [("稼働日数", "<=", "5日")] =
      Except.error "KeyError: 稼働日数_num — line 256 rebinds filtered to a boolean Series, line 257 indexes it by column label" := rfl

/-- C3 (counterexample): as stated, the subset claim fails, because on
the condition `("稼働日数", "<=", "3日")` the engine does not return a
row set at all — it raises the line-256/257 `KeyError`. -/
theorem C3_counterexample :
    ¬ ∃ g, apply_filters df [("稼働日数", "<=", "3日")] = Except.ok g ∧
        g.rows.Sublist df.rows := by
  rintro ⟨g, hg, -⟩
  rw [show apply_filters df [("稼働日数", "<=", "3日")] = Except.error
      "KeyError: 稼働日数_num — line 256 rebinds filtered to a boolean Series, line 257 indexes it by column label" from rfl] at hg
  exact Except.noConfusion hg

/-- C3 (amended): whenever the Filter Engine returns normally on a
single condition, its rows are a sublist of the rows of
`apply(d, [])` (which returns the dataset itself): filtering never
adds rows and never alters surviving rows. -/
theorem C3_filter_sublist (d : Frame) (c : String × String × String)
    (g : Frame) (h : apply_filters d [c] = Except.ok g) :
    apply_filters d [] = Except.ok d ∧ g.rows.Sublist d.rows := by
  refine ⟨rfl, ?_⟩
  rw [apply_filters_single] at h
  exact (applyOne_ok d c g h).2

theorem C3_filter_sublist_witness :
    apply_filters df [("荷台形状", "==", "ミキサ")] =
      Except.ok ⟨df.cols, df.rows.filter
        (fun r => hasSubstr "ミキサ".data (cellToStr (getCell df r "荷台形状")).data)⟩ ∧
    (apply_filters df [] = Except.ok df ∧
      (df.rows.filter
        (fun r => hasSubstr "ミキサ".data (cellToStr (getCell df r "荷台形状")).data)).Sublist
        df.rows) :=
  ⟨rfl, C3_filter_sublist df ("荷台形状", "==", "ミキサ") _ rfl⟩

/-- C10 (counterexample): the claim that the containment test never
raises is false: the condition value `"("`, passed to `re` as a
pattern, raises instead of filtering. -/
theorem C10_counterexample :
    ¬ ∃ g, apply_filters df [("荷台形状", "==", "(")] = Except.ok g := by
  rintro ⟨g, hg⟩
  rw [show apply_filters df [("荷台形状", "==", "(")] = Except.error
      "re-pattern with metacharacters: outside the modelled fragment (a lone parenthesis raises re.error)" from rfl] at hg
  exact Except.noConfusion hg

/-- C10 (amended): for every condition value free of regex
metacharacters, the containment path of the Filter Engine (any
operator, any column other than the two specially-dispatched ones)
completes without raising. -/
theorem C10_no_meta_no_raise (f : Frame) (col op val : String)
    (h1 : col ≠ "稼働日数") (h2 : col ≠ "稼働時間")
    (h3 : val.data.any (fun c => c ∈ reMetaChars) = false) :
    ∃ g, apply_filters f [(col, op, val)] = Except.ok g := by
  rw [apply_filters_single]
  simp only [applyOne, h1, h2, false_and, if_false]
  by_cases hc : col ∈ f.cols
  · by_cases hop : op = "==" ∨ op = ">=" ∨ op = "<="
    · refine ⟨⟨f.cols, f.rows.filter
        (fun r => hasSubstr val.data (cellToStr (getCell f r col)).data)⟩, ?_⟩
      rw [if_neg (not_not_intro hc), if_pos hop]
      simp only [containsFilter, h3]
      rw [if_neg (by decide)]
    · exact ⟨f, by rw [if_neg (not_not_intro hc), if_neg hop]⟩
  · exact ⟨f, if_pos hc⟩

theorem C10_no_meta_no_raise_witness :
    ("休憩時間" : String) ≠ "稼働日数" ∧ ("休憩時間" : String) ≠ "稼働時間" ∧
    "ダンプ".data.any (fun c => c ∈ reMetaChars) = false ∧
    ∃ g, apply_filters df [("休憩時間", "==", "ダンプ")] = Except.ok g :=
  ⟨by decide, by decide, by decide,
    C10_no_meta_no_raise df "休憩時間" "==" "ダンプ" (by decide) (by decide) (by decide)⟩

/-- C5: for every text fragment and every threshold `t ∈ (0,1]` (the
exact fraction `tn / td`), the Column Resolver returns either no match
or a column whose similarity score (the maximal one, which the
returned column attains) is at least `t`; it never returns a column
scoring below `t`. -/
theorem C5_threshold_sound (cols : List String) (text : String) (tn td : Nat)
    (h0 : 0 < tn) (h1 : tn ≤ td) (c : String)
    (hc : find_best_column cols text (tn, td) = some c) :
    (tn : ℚ) / (td : ℚ) ≤
      ((calc_similarity text c).1 : ℚ) / ((calc_similarity text c).2 : ℚ) := by
  obtain ⟨-, hge⟩ := find_best_column_some cols text (tn, td) c hc
  have hden : 0 < (calc_similarity text c).2 := calc_similarity_den_pos text c
  have htd : 0 < td := lt_of_lt_of_le h0 h1
  have hcross : tn * (calc_similarity text c).2 ≤ (calc_similarity text c).1 * td := by
    simp only [fracLt] at hge
    exact Nat.le_of_not_lt (by simpa using hge)
  rw [div_le_div_iff₀ (by exact_mod_cast htd) (by exact_mod_cast hden)]
  exact_mod_cast hcross

theorem C5_threshold_sound_witness :
    (0 : Nat) < 2 ∧ (2 : Nat) ≤ 5 ∧
    find_best_column df.cols "稼働日数" (2, 5) = some "稼働日数" ∧
    (2 : ℚ) / (5 : ℚ) ≤
      ((calc_similarity "稼働日数" "稼働日数").1 : ℚ) /
        ((calc_similarity "稼働日数" "稼働日数").2 : ℚ) :=
  ⟨by decide, by decide, by decide,
    C5_threshold_sound df.cols "稼働日数" 2 5 (by decide) (by decide)
      "稼働日数" (by decide)⟩

/-- C6: for every dataset with a nonempty column list and every
question text, the parser's target column is a member of the dataset's
column set; and when no token resolves to a column in the reverse
scan, it is the dataset's first declared column. -/
theorem C6_target_column (f : Frame) (q : String) (h : f.cols ≠ []) :
    (parse_conditions f q).2 ∈ f.cols ∧
      ((∀ t ∈ tokensOf q, find_best_column f.cols t defThreshold = none) →
        (parse_conditions f q).2 = f.cols.headI) := by
  have htarget : (parse_conditions f q).2 = parseTarget f (tokensOf q) := rfl
  constructor
  · rw [htarget]
    simp only [parseTarget]
    cases hfs : (tokensOf q).reverse.findSome?
        (fun t => find_best_column f.cols t defThreshold) with
    | some c =>
      obtain ⟨t, -, ht⟩ := exists_of_findSome?_some hfs
      exact (find_best_column_some f.cols t defThreshold c ht).1
    | none =>
      cases hc : f.cols with
      | nil => exact absurd hc h
      | cons a l => simp [List.headI]
  · intro hall
    rw [htarget]
    simp only [parseTarget]
    rw [findSome?_none_of_all _ _
      (fun t ht => hall t (List.mem_reverse.mp ht))]

theorem C6_target_column_witness :
    df.cols ≠ [] ∧
    ((parse_conditions df "").2 ∈ df.cols ∧
      ((∀ t ∈ tokensOf "", find_best_column df.cols t defThreshold = none) →
        (parse_conditions df "").2 = df.cols.headI)) :=
  ⟨by decide, C6_target_column df "" (by decide)⟩

/-- C4 (counterexample): EQ on a categorical column is not the
case-insensitive substring test the claim states: with value
`"standard"` against the cell `"STANDARD"` (a case-insensitive match)
the engine keeps no rows — `.str.contains` is case-sensitive. -/
theorem C4_counterexample :
    ¬ (apply_filters df [("安全装備パッケージ", "==", "standard")] =
        Except.ok ⟨df.cols, df.rows.filter (fun r =>
          ciContainsSubstr (cellToStr (getCell df r "安全装備パッケージ")) "standard")⟩) := by
  intro h
  rw [show apply_filters df [("安全装備パッケージ", "==", "standard")] =
      Except.ok ⟨df.cols, []⟩ from rfl] at h
  exact absurd (congrArg Frame.rows (Except.ok.inj h)) (by decide)

/-- C4 (amended): for an EQ condition on a categorical column (neither
of the two specially-dispatched columns) whose value is free of regex
metacharacters, the Filter Engine keeps exactly the rows whose
stringified cell contains the value as a case-SENSITIVE substring. -/
theorem C4_categorical_eq_contains (f : Frame) (col val : String)
    (h1 : col ≠ "稼働日数") (h2 : col ≠ "稼働時間")
    (h3 : val.data.any (fun c => c ∈ reMetaChars) = false)
    (h4 : col ∈ f.cols) :
    apply_filters f [(col, "==", val)] =
      Except.ok ⟨f.cols, f.rows.filter
        (fun r => hasSubstr val.data (cellToStr (getCell f r col)).data)⟩ := by
  rw [apply_filters_single]
  simp only [applyOne, h1, h2, false_and, true_or, ite_true, ite_false]
  rw [if_neg (not_not_intro h4)]
  simp only [containsFilter, h3]
  rw [if_neg (by decide)]

theorem C4_categorical_eq_contains_witness :
    ("安全装備パッケージ" : String) ≠ "稼働日数" ∧
    ("安全装備パッケージ" : String) ≠ "稼働時間" ∧
    "PREMIUM".data.any (fun c => c ∈ reMetaChars) = false ∧
    "安全装備パッケージ" ∈ df.cols ∧
    apply_filters df [("安全装備パッケージ", "==", "PREMIUM")] =
      Except.ok ⟨df.cols, df.rows.filter
        (fun r => hasSubstr "PREMIUM".data
          (cellToStr (getCell df r "安全装備パッケージ")).data)⟩ :=
  ⟨by decide, by decide, by decide, by decide,
    C4_categorical_eq_contains df "安全装備パッケージ" "PREMIUM"
      (by decide) (by decide) (by decide) (by decide)⟩

/-- C8 (counterexample): with threshold `x = 1000`, the claim's reading
keeps the `"12時間以上"` row (its range `(12, unbounded)` contains every
`x ≥ 12`), but the engine reads the open upper bound as the sentinel
`999` and keeps no rows. -/
theorem C8_counterexample :
    ¬ (apply_filters df [("稼働時間", "==", "1000時間")] =
        Except.ok ⟨df.cols, df.rows.filter (fun r =>
          match getCell df r "稼働時間_range" with
          | Cell.range lo hi => rangeContainsUnbounded lo hi 1000
          | _ => false)⟩) := by
  intro h
  rw [show apply_filters df [("稼働時間", "==", "1000時間")] =
      Except.ok ⟨df.cols, []⟩ from rfl] at h
  exact absurd (congrArg Frame.rows (Except.ok.inj h)) (by decide)

/-- C8 (amended): an EQ condition on the duration column with threshold
`x` keeps exactly the rows whose parsed `(low, high)` range contains
`x` after reading a missing `low` as `0` and a missing `high` as the
sentinel `999` — not as unbounded. -/
theorem C8_eq_range_sentinel (f : Frame) (val : String) (x : Nat)
    (h1 : "稼働時間" ∈ f.cols) (h2 : "稼働時間_range" ∈ f.cols)
    (h3 : firstNum val = some x)
    (h4 : ∀ r ∈ f.rows, isRangeCell (getCell f r "稼働時間_range") = true) :
    apply_filters f [("稼働時間", "==", val)] =
      Except.ok ⟨f.cols, f.rows.filter (rowRangeKeep f x)⟩ := by
  rw [apply_filters_single]
  simp only [applyOne, h3, false_and, true_and, ite_true, ite_false]
  rw [if_neg (not_not_intro h1), if_pos h2]
  have hrows : ∀ r ∈ f.rows,
      cellRangeTest (getCell f r "稼働時間_range") (checkRangeEQ x) =
        Except.ok (rowRangeKeep f x r) := by
    intro r hr
    have hcell := h4 r hr
    cases hc : getCell f r "稼働時間_range" with
    | range lo hi => simp [cellRangeTest, rowRangeKeep, hc]
    | str s => rw [hc] at hcell; exact absurd hcell (by simp [isRangeCell])
    | num2 q => rw [hc] at hcell; exact absurd hcell (by simp [isRangeCell])
  rw [filterE_eq_filter _ (rowRangeKeep f x) f.rows hrows]
  rfl

theorem C8_eq_range_sentinel_witness :
    "稼働時間" ∈ df.cols ∧ "稼働時間_range" ∈ df.cols ∧
    firstNum "8時間" = some 8 ∧
    (∀ r ∈ df.rows, isRangeCell (getCell df r "稼働時間_range") = true) ∧
    apply_filters df [("稼働時間", "==", "8時間")] =
      Except.ok ⟨df.cols, df.rows.filter (rowRangeKeep df 8)⟩ :=
  ⟨by decide, by decide, by decide, by decide,
    C8_eq_range_sentinel df "8時間" 8 (by decide) (by decide) (by decide) (by decide)⟩

theorem pcFold_all_none (f : Frame) :
    ∀ l : List String,
      (∀ t ∈ l, find_best_column f.cols t defThreshold = none) →
      l.foldl (pcStep f) ([], none) = ([], none) := by
  intro l
  induction l with
  | nil => intro _; rfl
  | cons t ts ih =>
    intro h
    rw [List.foldl_cons]
    have hstep : pcStep f ([], none) t = ([], none) := by
      simp [pcStep, h t (List.mem_cons_self t ts)]
    rw [hstep]
    exact ih (fun x hx => h x (List.mem_cons_of_mem t hx))

/-- When no token resolves to a column, the parser yields an empty
filter dict and the default target. -/
theorem parse_conditions_all_none (f : Frame) (u : String)
    (h : ∀ t ∈ tokensOf u, find_best_column f.cols t defThreshold = none) :
    parse_conditions f u = ([], f.cols.headI) := by
  simp only [parse_conditions, parseFilterDict, parseTarget]
  rw [pcFold_all_none f (tokensOf u) h,
    findSome?_none_of_all _ _ (fun t ht => h t (List.mem_reverse.mp ht))]

/-- C2 (counterexample): the question `"xyz123"`, none of whose tokens
resolves to a column, does not produce the NoMatch outcome (guidance
text, no chart): the route answers with a chart. -/
theorem C2_counterexample :
    ¬ ∃ g, ask "xyz123" = Except.ok (g, false) := by
  rintro ⟨g, hg⟩
  have h2 : (ask "xyz123").map Prod.snd = Except.ok true := rfl
  rw [hg] at h2
  simp [Except.map] at h2

/-- C2 (amended): a nonempty question none of whose tokens resolves to
a column yields an Answer for the default first column, with a chart
and the ambiguity warning prefixed to the distribution text — not the
NoMatch guidance (which the route reserves for an empty question, an
empty filter result, or an unresolvable target column). -/
theorem C2_noresolve_answer (q : String)
    (h0 : pyStrip q ≠ "")
    (h1 : ∀ t ∈ tokensOf (pyStrip q),
      find_best_column df.cols t defThreshold = none) :
    ask q = Except.ok ("質問がやや曖昧の可能性があります。\n\n" ++
      (get_distribution_and_chart df df.cols.headI).1, true) := by
  have hpc := parse_conditions_all_none df (pyStrip q) h1
  have happ : apply_filters df [] = Except.ok df := rfl
  simp only [ask, hpc, happ, if_neg h0]
  rfl

theorem C2_noresolve_answer_witness :
    pyStrip "xyz123" ≠ "" ∧
    (∀ t ∈ tokensOf (pyStrip "xyz123"),
      find_best_column df.cols t defThreshold = none) ∧
    ask "xyz123" = Except.ok ("質問がやや曖昧の可能性があります。\n\n" ++
      (get_distribution_and_chart df df.cols.headI).1, true) :=
  ⟨by decide, by decide, C2_noresolve_answer "xyz123" (by decide) (by decide)⟩

theorem digitChar_isDigit (n : Nat) : (digitChar n).isDigit = true := by
  unfold digitChar
  split <;> decide

theorem digitVal_digitChar (n : Nat) (h : n < 10) :
    digitVal (digitChar n) = n := by
  interval_cases n <;> decide

/-- Digits of `n` (with sufficient fuel): all digit characters,
nonempty, and parsing them back yields `n`. -/
theorem natDigitsF_spec : ∀ (fuel n : Nat), n < fuel →
    (∀ c ∈ natDigitsF fuel n, c.isDigit = true) ∧
    natDigitsF fuel n ≠ [] ∧
    parseDigits (natDigitsF fuel n) = n := by
  intro fuel
  induction fuel with
  | zero => intro n h; omega
  | succ fuel ih =>
    intro n h
    by_cases h10 : n < 10
    · simp only [natDigitsF, if_pos h10]
      refine ⟨?_, by simp, ?_⟩
      · intro c hc
        have hc : c = digitChar n := by simpa using hc
        rw [hc]
        exact digitChar_isDigit n
      · have : parseDigits [digitChar n] = digitVal (digitChar n) := by
          simp [parseDigits]
        rw [this, digitVal_digitChar n h10]
    · have hdiv : n / 10 < fuel := by
        have hlt : n / 10 < n := Nat.div_lt_self (by omega) (by omega)
        omega
      obtain ⟨ha, -, hp⟩ := ih (n / 10) hdiv
      simp only [natDigitsF, if_neg h10]
      refine ⟨?_, by simp, ?_⟩
      · intro c hc
        rcases List.mem_append.mp hc with hin | hin
        · exact ha c hin
        · have hc : c = digitChar (n % 10) := by simpa using hin
          rw [hc]
          exact digitChar_isDigit _
      · have hsplit : parseDigits (natDigitsF fuel (n / 10) ++ [digitChar (n % 10)]) =
            10 * parseDigits (natDigitsF fuel (n / 10)) + digitVal (digitChar (n % 10)) := by
          simp [parseDigits, List.foldl_append]
        rw [hsplit, hp, digitVal_digitChar _ (Nat.mod_lt n (by omega))]
        omega

theorem takeWhile_append_of_all (p : Char → Bool) :
    ∀ (ds es : List Char), (∀ c ∈ ds, p c = true) →
      (es = [] ∨ ∃ e es2, es = e :: es2 ∧ p e = false) →
      (ds ++ es).takeWhile p = ds ∧ (ds ++ es).dropWhile p = es := by
  intro ds
  induction ds with
  | nil =>
    intro es _ hes
    rcases hes with rfl | ⟨e, es2, rfl, hpe⟩
    · exact ⟨rfl, rfl⟩
    · simp [List.takeWhile_cons, List.dropWhile_cons, hpe]
  | cons d ds ih =>
    intro es hds hes
    have hpd : p d = true := hds d (List.mem_cons_self d ds)
    obtain ⟨ht, hd⟩ := ih es (fun c hc => hds c (List.mem_cons_of_mem d hc)) hes
    simp [List.takeWhile_cons, List.dropWhile_cons, hpd, ht, hd]

theorem matchNumThen_concrete (suffix ds es : List Char)
    (hds : ∀ c ∈ ds, Char.isDigit c = true) (hne : ds ≠ [])
    (hes : es = [] ∨ ∃ e es2, es = e :: es2 ∧ Char.isDigit e = false) :
    matchNumThen suffix (ds ++ es) =
      if suffix.isPrefixOf es = true then some ds else none := by
  obtain ⟨ht, hd⟩ := takeWhile_append_of_all Char.isDigit ds es hds hes
  simp only [matchNumThen, ht, hd, if_neg hne]

/-- Normalizing a rendered whole-day token `"<m>日"` yields `m` days
(`2 * m` half-days). -/
theorem parse_natStr_day (m : Nat) :
    parse_kadou_nissu2 (natStr m ++ "日") = some (2 * m) := by
  obtain ⟨hdig, hne, hp⟩ := natDigitsF_spec (m + 1) m (Nat.lt_succ_self m)
  have hdata : (natStr m ++ "日").data = natDigitsF (m + 1) m ++ ['日'] := rfl
  have hes : (['日'] : List Char) = [] ∨
      ∃ e es2, (['日'] : List Char) = e :: es2 ∧ Char.isDigit e = false :=
    Or.inr ⟨'日', [], rfl, by decide⟩
  have h1 : matchNumThen "日以下".data (natStr m ++ "日").data = none := by
    rw [hdata, matchNumThen_concrete _ _ _ hdig hne hes, if_neg (by decide)]
  have h2 : matchRangeThen "日".data (natStr m ++ "日").data = none := by
    rw [hdata]
    obtain ⟨ht, hd⟩ := takeWhile_append_of_all Char.isDigit _ _ hdig hes
    simp only [matchRangeThen, ht, hd, if_neg hne]
    rfl
  have h3 : matchNumThen "日".data (natStr m ++ "日").data =
      some (natDigitsF (m + 1) m) := by
    rw [hdata, matchNumThen_concrete _ _ _ hdig hne hes, if_pos (by decide)]
  simp only [parse_kadou_nissu2, h1, h2, h3, hp]

/-- C7 (counterexample): the well-formed ranged token `"3～4日"`
normalizes to 3.5 days (7 half-days), but normalizing the stringified
numeric result does not yield the same number — the rendered `"3.5日"`
fails to parse at all. -/
theorem C7_counterexample :
    parse_kadou_nissu2 "3～4日" = some 7 ∧
    ¬ parse_kadou_nissu2 (stringifyDay2 7) = some 7 :=
  ⟨rfl, by decide⟩

/-- C7 (amended): for every well-formed day-count token whose numeric
result is a whole number of days (`n` half-days with `n` even),
normalizing the stringified numeric result yields the same number;
ranged tokens with a fractional midpoint re-normalize to `none`
instead. -/
theorem C7_roundtrip_integral (s : String) (n : Nat)
    (_hparse : parse_kadou_nissu2 s = some n) (heven : n % 2 = 0) :
    parse_kadou_nissu2 (stringifyDay2 n) = some n := by
  have hs : stringifyDay2 n = natStr (n / 2) ++ "日" := by
    simp [stringifyDay2, heven]
  rw [hs, parse_natStr_day]
  congr 1
  omega

theorem C7_roundtrip_integral_witness :
    parse_kadou_nissu2 "7日" = some 14 ∧ (14 : Nat) % 2 = 0 ∧
    parse_kadou_nissu2 (stringifyDay2 14) = some 14 :=
  ⟨rfl, rfl, C7_roundtrip_integral "7日" 14 rfl rfl⟩
